import Mathlib

/-!
Verification of the golissimo ingestion pipeline (`src/index.ts`, the current
revision starting at the second `scheduled` handler).  The TypeScript source is
shallowly embedded: JavaScript strings become `String`, `null`/`undefined`
become `Option`, JS truthiness of strings is modelled by `jsStr`, the WHATWG
`URL` object is modelled by a simplified parser `parseUrl` capturing the
behaviours the pipeline depends on (scheme/host/path decomposition, query and
fragment stripping, authority vs opaque-path forms, userinfo and port
exclusion from `hostname`), and all network / browser / AI / KV effects are
driven by explicit oracles so that the `scheduled` loop becomes a pure fold.
-/

namespace Golissimo

/-! ## Generic string helpers (JS semantics) -/

/-- Model of JS string truthiness for a `string | null` value: `null`,
`undefined` and the empty string are falsy. -/
def jsStr : Option String → Option String
  | some s => if s = "" then none else some s
  | none => none

/-- `needle` occurs at the head of `hay` (list form). -/
def leadsList : List Char → List Char → Bool
  | [], _ => true
  | _ :: _, [] => false
  | a :: as, b :: bs => a == b && leadsList as bs

/-- `needle` occurs somewhere inside `hay` (list form); models JS
`String.prototype.includes`. -/
def occursIn (needle : List Char) : List Char → Bool
  | [] => needle.isEmpty
  | h :: t => leadsList needle (h :: t) || occursIn needle t

/-- Models JS `hay.includes(needle)`. -/
def strIncludes (hay needle : String) : Bool :=
  occursIn needle.data hay.data

/-- Models JS `s.endsWith(suffix)`. -/
def strEndsWith (s suffix : String) : Bool :=
  leadsList suffix.data.reverse s.data.reverse

/-- Models JS `s.startsWith(pre)`. -/
def strStartsWith (s pre : String) : Bool :=
  leadsList pre.data s.data

/-- JS `parseInt(s, 10)`: skip leading whitespace, optional sign, then a
leading run of digits; `none` models `NaN`. -/
def jsParseInt (s : String) : Option Int :=
  let t := s.data.dropWhile (fun c => c == ' ' || c == '\t' || c == '\n' || c == '\r')
  let (neg, t) : Bool × List Char :=
    match t with
    | '-' :: r => (true, r)
    | '+' :: r => (false, r)
    | r => (false, r)
  let digits := t.takeWhile Char.isDigit
  if digits.isEmpty then none
  else
    let n : Nat := digits.foldl (fun acc c => acc * 10 + (c.toNat - 48)) 0
    some (if neg then -(n : Int) else (n : Int))

def digitsVal (l : List Char) : Nat :=
  l.foldl (fun acc c => acc * 10 + (c.toNat - 48)) 0

/-- JS `Number(s)` followed by the source's `Number.isFinite` guard that
coerces a non-finite result to `0` (index.ts:626-627): an integer numeral
parses, anything non-numeric becomes `0`. -/
def jsNumOr0 (s : String) : Int :=
  match s.data with
  | '-' :: rest =>
    if !rest.isEmpty && rest.all Char.isDigit then -(digitsVal rest : Int)
    else 0
  | l => if !l.isEmpty && l.all Char.isDigit then (digitsVal l : Int) else 0

/-! ## URL model

A simplified WHATWG URL: `scheme:...`.  If the remainder after the scheme
starts with `//` the URL has an authority (userinfo, hostname, port),
otherwise the remainder is an opaque path.  The query (`?...`) and fragment
(`#...`) are split off in both cases.  The parser lowercases the scheme (as
the `protocol` getter does) but leaves the hostname untouched — WHATWG
lowercases only special-scheme domains, and `canonicalizeUrl` lowercases
explicitly anyway. -/

structure UrlParts where
  scheme : List Char
  userinfo : List Char
  hostname : List Char
  port : List Char
  pathname : List Char
  search : List Char
  hash : List Char
  hasAuth : Bool
  deriving Repr, DecidableEq

/-- A character allowed in a URL scheme (RFC 3986 / WHATWG). -/
def schemeChar (c : Char) : Bool :=
  c.isAlpha || c.isDigit || c == '+' || c == '-' || c == '.'

/-- The scheme is non-empty, starts with a letter and uses scheme characters
only. -/
def validScheme (l : List Char) : Bool :=
  match l with
  | [] => false
  | c :: _ => c.isAlpha && l.all schemeChar

/-- Split at the first occurrence of `c`; `none` when `c` is absent. -/
def splitFirst (c : Char) (l : List Char) : Option (List Char × List Char) :=
  let a := l.takeWhile (fun x => !(x == c))
  let b := l.dropWhile (fun x => !(x == c))
  match b with
  | [] => none
  | _ :: t => some (a, t)

/-- Split an authority at its last `@` into userinfo and host-port (WHATWG
uses the last `@`); no `@` means no userinfo. -/
def splitUserinfo (l : List Char) : List Char × List Char :=
  match splitFirst '@' l.reverse with
  | some (ra, rb) => (rb.reverse, ra.reverse)
  | none => ([], l)

/-- Split a host-port at its first `:` into hostname and port. -/
def splitPort (l : List Char) : List Char × List Char :=
  match splitFirst ':' l with
  | some (h, p) => (h, p)
  | none => (l, [])

/-- A character that does not terminate the authority section. -/
def notAuthStop (c : Char) : Bool := !(c == '/' || c == '?' || c == '#')

/-- A character that does not terminate the path section. -/
def notPathStop (c : Char) : Bool := !(c == '?' || c == '#')

/-- ASCII lowercasing of one character (the fragment of JS `toLowerCase` the
pipeline exercises). -/
def lowChar : Char → Char
  | 'A' => 'a' | 'B' => 'b' | 'C' => 'c' | 'D' => 'd' | 'E' => 'e' | 'F' => 'f'
  | 'G' => 'g' | 'H' => 'h' | 'I' => 'i' | 'J' => 'j' | 'K' => 'k' | 'L' => 'l'
  | 'M' => 'm' | 'N' => 'n' | 'O' => 'o' | 'P' => 'p' | 'Q' => 'q' | 'R' => 'r'
  | 'S' => 's' | 'T' => 't' | 'U' => 'u' | 'V' => 'v' | 'W' => 'w' | 'X' => 'x'
  | 'Y' => 'y' | 'Z' => 'z'
  | c => c

def lowerL (l : List Char) : List Char := l.map lowChar

/-- Lowercase a string (models JS `toLowerCase` for the ASCII range). -/
def strLower (s : String) : String := String.mk (lowerL s.data)

/-- Split the part after `?` into query and fragment. -/
def splitSearchHash (rest4 : List Char) : List Char × List Char :=
  match rest4 with
  | '?' :: r =>
    (r.takeWhile (fun c => !(c == '#')),
     (r.dropWhile (fun c => !(c == '#'))).drop 1)
  | '#' :: r => ([], r)
  | _ => ([], [])

/-- Parse the section after `scheme://`: authority, path, query, fragment. -/
def parseAfterAuth (sch : List Char) (rest2 : List Char) : UrlParts :=
  let auth := rest2.takeWhile notAuthStop
  let rest3 := rest2.dropWhile notAuthStop
  let sh := splitSearchHash (rest3.dropWhile notPathStop)
  let ui := splitUserinfo auth
  let hostport := splitPort ui.2
  ⟨lowerL sch, ui.1, hostport.1, hostport.2, rest3.takeWhile notPathStop,
    sh.1, sh.2, true⟩

/-- Parse an opaque-path remainder (`scheme:rest` without `//`). -/
def parseOpaque (sch : List Char) (rest : List Char) : UrlParts :=
  let sh := splitSearchHash (rest.dropWhile notPathStop)
  ⟨lowerL sch, [], [], [], rest.takeWhile notPathStop, sh.1, sh.2, false⟩

/-- Parse a URL string (list form); `none` models a `new URL(...)` throw. -/
def parseUrlL (s : List Char) : Option UrlParts :=
  match splitFirst ':' s with
  | none => none
  | some (sch, rest) =>
    if validScheme sch then
      match rest with
      | '/' :: '/' :: rest2 => some (parseAfterAuth sch rest2)
      | _ => some (parseOpaque sch rest)
    else none

def parseUrl (s : String) : Option UrlParts := parseUrlL s.data

/-- `pathname.replace(/\/+$/, '')`: drop trailing slashes. -/
def stripTrail (l : List Char) : List Char :=
  (l.reverse.dropWhile (fun c => c == '/')).reverse

/-- The `${u.protocol}//${u.hostname}${u.pathname}` template of
`canonicalizeUrl` (index.ts:1107), after lowercasing the hostname and
stripping trailing slashes from the path. -/
def canonL (u : UrlParts) : List Char :=
  u.scheme ++ (':' :: '/' :: '/' :: []) ++ lowerL u.hostname ++ stripTrail u.pathname

/-- index.ts:1098-1111 — parse, strip query/fragment, lowercase the host,
strip trailing slashes, reassemble scheme + host + path; on a parse failure
return the raw string. -/
def canonicalizeUrl (rawUrl : String) : String :=
  match parseUrl rawUrl with
  | some u => String.mk (canonL u)
  | none => rawUrl

/-- The inputs on which the canonicalizer round-trips: parse failures and
URLs carrying an authority (`scheme://...`).  Opaque-path URLs
(`scheme:path`) are excluded: the reassembly template inserts `//`, so the
path is re-parsed as an authority on the second pass. -/
def canonSafe (s : String) : Bool :=
  match parseUrl s with
  | none => true
  | some u => u.hasAuth

/-! ## Lemmas about the URL model -/

def lowAlphaList : List Char :=
  ['a', 'b', 'c', 'd', 'e', 'f', 'g', 'h', 'i', 'j', 'k', 'l', 'm',
   'n', 'o', 'p', 'q', 'r', 's', 't', 'u', 'v', 'w', 'x', 'y', 'z']

theorem lowChar_cases (c : Char) : lowChar c = c ∨ lowChar c ∈ lowAlphaList := by
  unfold lowChar
  split
  all_goals first
    | (right; decide)
    | (left; rfl)

theorem lowChar_idem (c : Char) : lowChar (lowChar c) = lowChar c := by
  rcases lowChar_cases c with h | h
  · rw [h]; exact h
  · have : ∀ d ∈ lowAlphaList, lowChar d = d := by decide
    exact this _ h

theorem lowerL_idem (l : List Char) : lowerL (lowerL l) = lowerL l := by
  simp only [lowerL, List.map_map, Function.comp]
  exact List.map_congr_left fun c _ => lowChar_idem c

theorem lowChar_eq_of_nonalpha {c s : Char} (hs : s ∉ lowAlphaList)
    (h : lowChar c = s) : c = s := by
  rcases lowChar_cases c with h1 | h1
  · rw [h1] at h; exact h
  · rw [h] at h1; exact absurd h1 hs

theorem validScheme_lower {l : List Char} (h : validScheme l = true) :
    validScheme (lowerL l) = true := by
  have hmem : ∀ d ∈ lowAlphaList, schemeChar d = true ∧ d.isAlpha = true := by decide
  cases l with
  | nil => simp [validScheme] at h
  | cons c t =>
    simp only [validScheme, Bool.and_eq_true, List.all_eq_true] at h
    simp only [lowerL, List.map_cons, validScheme, Bool.and_eq_true, List.all_eq_true]
    constructor
    · rcases lowChar_cases c with h1 | h1
      · rw [h1]; exact h.1
      · exact (hmem _ h1).2
    · intro x hx
      simp only [List.mem_cons] at hx
      rcases hx with hx | hx
      · subst hx
        rcases lowChar_cases c with h1 | h1
        · rw [h1]; exact h.2 c (by simp)
        · exact (hmem _ h1).1
      · rcases List.mem_map.mp hx with ⟨y, hy, rfl⟩
        rcases lowChar_cases y with h1 | h1
        · rw [h1]; exact h.2 y (by simp [hy])
        · exact (hmem _ h1).1

theorem takeWhile_append_pos {α : Type} {p : α → Bool} :
    ∀ {l r : List α}, (∀ a ∈ l, p a = true) →
      (l ++ r).takeWhile p = l ++ r.takeWhile p ∧
      (l ++ r).dropWhile p = r.dropWhile p := by
  intro l r h
  induction l with
  | nil => simp
  | cons a t ih =>
    have ha : p a = true := h a (by simp)
    have ht : ∀ x ∈ t, p x = true := fun x hx => h x (by simp [hx])
    simp [List.takeWhile_cons, List.dropWhile_cons, ha, ih ht]

theorem dropWhile_head_false {α : Type} (p : α → Bool) (l : List α) :
    l.dropWhile p = [] ∨
    ∃ x t, l.dropWhile p = x :: t ∧ p x = false := by
  induction l with
  | nil => exact Or.inl rfl
  | cons a t ih =>
    by_cases h : p a = true
    · simpa [List.dropWhile_cons, h] using ih
    · right
      exact ⟨a, t, by simp [List.dropWhile_cons, h], by simpa using h⟩

theorem dropWhile_idem {α : Type} (p : α → Bool) (l : List α) :
    (l.dropWhile p).dropWhile p = l.dropWhile p := by
  rcases dropWhile_head_false p l with h | ⟨x, t, h, hx⟩
  · rw [h]; rfl
  · rw [h, List.dropWhile_cons, hx]
    simp

theorem mem_of_mem_takeWhile {α : Type} {p : α → Bool} {l : List α} {a : α}
    (h : a ∈ l.takeWhile p) : a ∈ l :=
  (List.takeWhile_prefix p).sublist.subset h

theorem mem_of_mem_dropWhile {α : Type} {p : α → Bool} {l : List α} {a : α}
    (h : a ∈ l.dropWhile p) : a ∈ l :=
  (List.dropWhile_suffix p).sublist.subset h

theorem splitFirst_none {c : Char} {l : List Char}
    (h : ∀ x ∈ l, (x == c) = false) : splitFirst c l = none := by
  unfold splitFirst
  have : l.dropWhile (fun x => !(x == c)) = [] :=
    List.dropWhile_eq_nil_iff.mpr fun x hx => by simp [h x hx]
  rw [this]

theorem splitFirst_append {c : Char} {a b : List Char}
    (h : ∀ x ∈ a, (x == c) = false) :
    splitFirst c (a ++ c :: b) = some (a, b) := by
  unfold splitFirst
  have hpos : ∀ x ∈ a, (fun x => !(x == c)) x = true := fun x hx => by simp [h x hx]
  obtain ⟨ht, hd⟩ := takeWhile_append_pos (r := c :: b) hpos
  rw [ht, hd]
  simp [List.takeWhile_cons, List.dropWhile_cons]

theorem splitUserinfo_spec (l : List Char) :
    ('@' ∉ (splitUserinfo l).2) ∧ ∀ a ∈ (splitUserinfo l).2, a ∈ l := by
  unfold splitUserinfo splitFirst
  rcases dropWhile_head_false (fun x => !(x == '@')) l.reverse with h | ⟨x, t, h, hx⟩
  · rw [h]
    have hall := List.dropWhile_eq_nil_iff.mp h
    refine ⟨fun hmem => ?_, fun a ha => ha⟩
    have := hall '@' (List.mem_reverse.mpr hmem)
    simp at this
  · rw [h]
    constructor
    · intro hmem
      have hmem' : '@' ∈ l.reverse.takeWhile (fun x => !(x == '@')) :=
        List.mem_reverse.mp hmem
      have := List.mem_takeWhile_imp hmem'
      simp at this
    · intro a ha
      have ha' : a ∈ l.reverse.takeWhile (fun x => !(x == '@')) :=
        List.mem_reverse.mp ha
      exact List.mem_reverse.mp (mem_of_mem_takeWhile ha')

theorem splitPort_spec (l : List Char) :
    (':' ∉ (splitPort l).1) ∧ ∀ a ∈ (splitPort l).1, a ∈ l := by
  unfold splitPort splitFirst
  rcases dropWhile_head_false (fun x => !(x == ':')) l with h | ⟨x, t, h, hx⟩
  · rw [h]
    have hall := List.dropWhile_eq_nil_iff.mp h
    refine ⟨fun hmem => ?_, fun a ha => ha⟩
    have := hall ':' hmem
    simp at this
  · rw [h]
    refine ⟨fun hmem => ?_, fun a ha => mem_of_mem_takeWhile ha⟩
    have := List.mem_takeWhile_imp hmem
    simp at this

theorem splitUserinfo_no_at {l : List Char} (h : '@' ∉ l) :
    splitUserinfo l = ([], l) := by
  unfold splitUserinfo
  rw [splitFirst_none fun x hx => ?_]
  simp only [beq_eq_false_iff_ne, ne_eq]
  rintro rfl
  exact h (List.mem_reverse.mp hx)

theorem splitPort_no_colon {l : List Char} (h : ':' ∉ l) :
    splitPort l = (l, []) := by
  unfold splitPort
  rw [splitFirst_none fun x hx => ?_]
  simp only [beq_eq_false_iff_ne, ne_eq]
  rintro rfl
  exact h hx

/-- Invariants that `parseUrlL` establishes on an authority-carrying result. -/
structure WfParts (u : UrlParts) : Prop where
  scheme_valid : validScheme u.scheme = true
  scheme_lower : lowerL u.scheme = u.scheme
  host_ok : ∀ a ∈ u.hostname, a ≠ '/' ∧ a ≠ '?' ∧ a ≠ '#' ∧ a ≠ '@' ∧ a ≠ ':'
  path_ok : ∀ a ∈ u.pathname, a ≠ '?' ∧ a ≠ '#'
  path_head : u.pathname = [] ∨ ∃ t, u.pathname = '/' :: t

theorem scheme_no_colon {l : List Char} (h : validScheme l = true) :
    ∀ x ∈ l, (x == ':') = false := by
  intro x hx
  simp only [validScheme] at h
  cases l with
  | nil => cases hx
  | cons c t =>
    simp only [Bool.and_eq_true, List.all_eq_true] at h
    have := h.2 x hx
    simp only [beq_eq_false_iff_ne, ne_eq]
    rintro rfl
    simp [schemeChar] at this

theorem parseAfterAuth_wf {sch rest2 : List Char} (hv : validScheme sch = true) :
    WfParts (parseAfterAuth sch rest2) := by
  have hauth : ∀ a ∈ rest2.takeWhile notAuthStop,
      a ≠ '/' ∧ a ≠ '?' ∧ a ≠ '#' := by
    intro a hma
    have := List.mem_takeWhile_imp hma
    simp only [notAuthStop, Bool.not_eq_true', Bool.or_eq_false_iff,
      beq_eq_false_iff_ne, ne_eq] at this
    exact ⟨this.1.1, this.1.2, this.2⟩
  refine ⟨?_, ?_, ?_, ?_, ?_⟩ <;> simp only [parseAfterAuth]
  · exact validScheme_lower hv
  · exact lowerL_idem sch
  · intro a hma
    obtain ⟨hui_at, hui_mem⟩ :=
      splitUserinfo_spec (rest2.takeWhile notAuthStop)
    obtain ⟨hpt_colon, hpt_mem⟩ :=
      splitPort_spec (splitUserinfo (rest2.takeWhile notAuthStop)).2
    have hmem2 : a ∈ (splitUserinfo (rest2.takeWhile notAuthStop)).2 :=
      hpt_mem a hma
    have hmem3 : a ∈ rest2.takeWhile notAuthStop := hui_mem a hmem2
    obtain ⟨h1, h2, h3⟩ := hauth a hmem3
    refine ⟨h1, h2, h3, ?_, ?_⟩
    · rintro rfl; exact hui_at hmem2
    · rintro rfl; exact hpt_colon hma
  · intro a hma
    have := List.mem_takeWhile_imp hma
    simp only [notPathStop, Bool.not_eq_true', Bool.or_eq_false_iff,
      beq_eq_false_iff_ne, ne_eq] at this
    exact this
  · rcases dropWhile_head_false notAuthStop rest2 with hd | ⟨x, t, hd, hx⟩
    · left; rw [hd]; rfl
    · rw [hd]
      simp only [notAuthStop, Bool.not_eq_false', Bool.or_eq_true,
        beq_iff_eq] at hx
      rcases hx with (hx | hx) | hx
      · subst hx
        right
        refine ⟨t.takeWhile notPathStop, ?_⟩
        simp [List.takeWhile_cons, notPathStop]
      · subst hx; left; simp [List.takeWhile_cons, notPathStop]
      · subst hx; left; simp [List.takeWhile_cons, notPathStop]

theorem parse_wf {s : List Char} {u : UrlParts} (hp : parseUrlL s = some u)
    (ha : u.hasAuth = true) : WfParts u := by
  unfold parseUrlL at hp
  split at hp
  · cases hp
  · split at hp
    · split at hp
      · simp only [Option.some.injEq] at hp
        subst hp
        exact parseAfterAuth_wf (by assumption)
      · simp only [Option.some.injEq] at hp
        subst hp
        cases ha
    · cases hp

theorem mem_of_mem_stripTrail {l : List Char} {a : Char}
    (h : a ∈ stripTrail l) : a ∈ l := by
  unfold stripTrail at h
  have h1 := List.mem_reverse.mp h
  exact List.mem_reverse.mp (mem_of_mem_dropWhile h1)

theorem stripTrail_idem (l : List Char) :
    stripTrail (stripTrail l) = stripTrail l := by
  unfold stripTrail
  rw [List.reverse_reverse, dropWhile_idem]

theorem stripTrail_shape {l : List Char} (h : l = [] ∨ ∃ t, l = '/' :: t) :
    stripTrail l = [] ∨ ∃ t, stripTrail l = '/' :: t := by
  have hsfx : stripTrail l <+: l := by
    unfold stripTrail
    have hs : l.reverse.dropWhile (fun c => c == '/') <:+ l.reverse :=
      List.dropWhile_suffix _
    have := List.reverse_prefix.mpr hs
    rwa [List.reverse_reverse] at this
  obtain ⟨t2, ht2⟩ := hsfx
  cases hst : stripTrail l with
  | nil => exact Or.inl rfl
  | cons a s =>
    right
    refine ⟨s, ?_⟩
    rw [hst] at ht2
    rcases h with rfl | ⟨t, ht⟩
    · simp at ht2
    · rw [ht] at ht2
      cases ht2
      rfl

theorem lowerL_host_ok {host : List Char}
    (h : ∀ a ∈ host, a ≠ '/' ∧ a ≠ '?' ∧ a ≠ '#' ∧ a ≠ '@' ∧ a ≠ ':') :
    ∀ a ∈ lowerL host, a ≠ '/' ∧ a ≠ '?' ∧ a ≠ '#' ∧ a ≠ '@' ∧ a ≠ ':' := by
  intro a ha
  rcases List.mem_map.mp ha with ⟨b, hb, rfl⟩
  obtain ⟨h1, h2, h3, h4, h5⟩ := h b hb
  refine ⟨?_, ?_, ?_, ?_, ?_⟩ <;> intro heq
  · exact h1 (lowChar_eq_of_nonalpha (by decide) heq)
  · exact h2 (lowChar_eq_of_nonalpha (by decide) heq)
  · exact h3 (lowChar_eq_of_nonalpha (by decide) heq)
  · exact h4 (lowChar_eq_of_nonalpha (by decide) heq)
  · exact h5 (lowChar_eq_of_nonalpha (by decide) heq)

theorem span_split {α : Type} {p : α → Bool} {l r : List α}
    (hl : ∀ a ∈ l, p a = true)
    (hr : r = [] ∨ ∃ x t, r = x :: t ∧ p x = false) :
    (l ++ r).takeWhile p = l ∧ (l ++ r).dropWhile p = r := by
  obtain ⟨ht, hd⟩ := takeWhile_append_pos (r := r) hl
  rcases hr with rfl | ⟨x, t, rfl, hx⟩
  · constructor
    · rw [List.append_nil]; exact List.takeWhile_eq_self_iff.mpr hl
    · rw [List.append_nil]; exact List.dropWhile_eq_nil_iff.mpr hl
  · rw [ht, hd]
    simp [List.takeWhile_cons, List.dropWhile_cons, hx]

/-- Re-parsing the canonicalizer's output of an authority-carrying URL
recovers the lowercased host and stripped path exactly. -/
theorem parse_canon {u : UrlParts} (hwf : WfParts u) :
    parseUrlL (canonL u) =
      some ⟨u.scheme, [], lowerL u.hostname, [], stripTrail u.pathname,
        [], [], true⟩ := by
  have hhost := lowerL_host_ok hwf.host_ok
  have hshape := stripTrail_shape hwf.path_head
  have hsheq : canonL u =
      u.scheme ++ ':' ::
        ('/' :: '/' :: (lowerL u.hostname ++ stripTrail u.pathname)) := by
    simp [canonL]
  have hauth : ∀ a ∈ lowerL u.hostname, notAuthStop a = true := by
    intro a ha
    obtain ⟨h1, h2, h3, _, _⟩ := hhost a ha
    simp [notAuthStop, h1, h2, h3]
  have hsp : (lowerL u.hostname ++ stripTrail u.pathname).takeWhile notAuthStop
        = lowerL u.hostname ∧
      (lowerL u.hostname ++ stripTrail u.pathname).dropWhile notAuthStop
        = stripTrail u.pathname := by
    refine span_split hauth ?_
    rcases hshape with hs | ⟨t, hs⟩
    · exact Or.inl hs
    · exact Or.inr ⟨'/', t, hs, by simp [notAuthStop]⟩
  have hpath : (stripTrail u.pathname).takeWhile notPathStop
        = stripTrail u.pathname ∧
      (stripTrail u.pathname).dropWhile notPathStop = [] := by
    constructor
    · refine List.takeWhile_eq_self_iff.mpr fun a ha => ?_
      obtain ⟨h1, h2⟩ := hwf.path_ok a (mem_of_mem_stripTrail ha)
      simp [notPathStop, h1, h2]
    · refine List.dropWhile_eq_nil_iff.mpr fun a ha => ?_
      obtain ⟨h1, h2⟩ := hwf.path_ok a (mem_of_mem_stripTrail ha)
      simp [notPathStop, h1, h2]
  have hui : splitUserinfo (lowerL u.hostname) = ([], lowerL u.hostname) := by
    refine splitUserinfo_no_at fun hmem => ?_
    exact (hhost '@' hmem).2.2.2.1 rfl
  have hpt : splitPort (lowerL u.hostname) = (lowerL u.hostname, []) := by
    refine splitPort_no_colon fun hmem => ?_
    exact (hhost ':' hmem).2.2.2.2 rfl
  unfold parseUrlL
  rw [hsheq, splitFirst_append (scheme_no_colon hwf.scheme_valid)]
  simp only [hwf.scheme_valid, if_true]
  unfold parseAfterAuth
  simp only [hsp.1, hsp.2, hpath.1, hpath.2, hui, hpt, hwf.scheme_lower]
  rfl

/-- C2 counterexample: the canonicalizer is not idempotent on opaque-path
URLs.  `mailto:a@b.com` canonicalizes to `mailto://a@b.com`; re-parsing that
output reads `a` as userinfo and `b.com` as the host, so a second pass yields
`mailto://b.com`. -/
theorem c2_counterexample_opaque_path :
    canonicalizeUrl (canonicalizeUrl "mailto:a@b.com") ≠
      canonicalizeUrl "mailto:a@b.com" := by
  decide

/-- C2 (amended): `canonicalizeUrl` is idempotent on every input that fails
to parse and on every URL that carries an authority (`scheme://...`); only
opaque-path URLs (`scheme:path`) can break idempotence, because the
reassembly template unconditionally inserts `//`. -/
theorem c2_canonicalizeUrl_idempotent_on_safe {s : String}
    (h : canonSafe s = true) :
    canonicalizeUrl (canonicalizeUrl s) = canonicalizeUrl s := by
  unfold canonSafe at h
  cases hp : parseUrl s with
  | none =>
    have h1 : canonicalizeUrl s = s := by unfold canonicalizeUrl; rw [hp]
    rw [h1]
    exact h1
  | some u =>
    rw [hp] at h
    have hwf : WfParts u := parse_wf (s := s.data) hp h
    have h1 : canonicalizeUrl s = String.mk (canonL u) := by
      unfold canonicalizeUrl; rw [hp]
    rw [h1]
    have hp2 : parseUrl (String.mk (canonL u)) =
        some ⟨u.scheme, [], lowerL u.hostname, [], stripTrail u.pathname,
          [], [], true⟩ := parse_canon hwf
    unfold canonicalizeUrl
    rw [hp2]
    simp only [canonL]
    rw [lowerL_idem, stripTrail_idem]

/-- Witness for the amended C2 theorem at a concrete authority URL. -/
theorem c2_witness :
    canonSafe "https://CDN.Example/Clip.mp4/" = true ∧
    canonicalizeUrl (canonicalizeUrl "https://CDN.Example/Clip.mp4/") =
      canonicalizeUrl "https://CDN.Example/Clip.mp4/" :=
  ⟨by decide, c2_canonicalizeUrl_idempotent_on_safe (by decide)⟩

/-! ## Feed records (`item.data` of the Reddit listing)

Only the fields the pipeline reads are modelled; `Option` covers JS
`undefined`/`null`, and object truthiness is `Option.isSome` (any JS object
is truthy). -/

structure RedditVideo where
  fallback_url : Option String
  scraper_media_url : Option String
  hls_url : Option String
  deriving Repr, DecidableEq

structure MediaObj where
  reddit_video : Option RedditVideo
  deriving Repr, DecidableEq

structure SourceObj where
  url : Option String
  deriving Repr, DecidableEq

structure VariantObj where
  source : Option SourceObj
  deriving Repr, DecidableEq

structure PreviewVariants where
  mp4 : Option VariantObj
  gif : Option VariantObj
  deriving Repr, DecidableEq

structure PreviewImage where
  variants : Option PreviewVariants
  source : Option SourceObj
  deriving Repr, DecidableEq

structure Preview where
  images : Option (List PreviewImage)
  deriving Repr, DecidableEq

structure GalleryItem where
  media_id : String
  deriving Repr, DecidableEq

structure MetaS where
  u : Option String
  gif : Option String
  deriving Repr, DecidableEq

structure MetaP where
  u : Option String
  deriving Repr, DecidableEq

structure MediaMeta where
  s : Option MetaS
  p : Option (List MetaP)
  deriving Repr, DecidableEq

structure PostData where
  name : Option String
  id : Option String
  permalink : Option String
  url : Option String
  title : Option String
  created_utc : Option String
  link_flair_text : Option String
  media : Option MediaObj
  is_gallery : Bool
  gallery_data : Option (List GalleryItem)
  media_metadata : Option (List (String × MediaMeta))
  preview : Option Preview
  url_overridden_by_dest : Option String
  deriving Repr, DecidableEq

/-- A `PostData` with every field absent, to build concrete records from. -/
def emptyPost : PostData :=
  ⟨none, none, none, none, none, none, none, none, false, none, none, none,
    none⟩

/-- Left-to-right, non-overlapping replacement of `&amp;` by `&`. -/
def replaceAmp : List Char → List Char
  | '&' :: 'a' :: 'm' :: 'p' :: ';' :: rest => '&' :: replaceAmp rest
  | c :: rest => c :: replaceAmp rest
  | [] => []

/-- index.ts:1158 — `u.replace(/&amp;/g, '&')`. -/
def decodeRedditUrl (u : String) : String := String.mk (replaceAmp u.data)

/-- The first preview image, `d?.preview?.images?.[0]`. -/
def pimgOf (d : PostData) : Option PreviewImage :=
  (d.preview.bind fun pr => pr.images).bind List.head?

/-- The extension test of index.ts:1153 —
`/(\.jpe?g|\.png|\.gif|\.mp4|\.m3u8)(\?|$)/i.test(url)`. -/
def mediaExtTest (url : String) : Bool :=
  let s := strLower url
  (["jpeg", "jpg", "png", "gif", "mp4", "m3u8"]).any fun e =>
    strIncludes s ("." ++ e ++ "?") || strEndsWith s ("." ++ e)

/-- The image-extension test of index.ts:1427 —
`/\.(jpe?g|png|webp|gif)(\?|$)/i.test(lower)` (input already lowercased). -/
def imageExtTest (s : String) : Bool :=
  (["jpeg", "jpg", "png", "webp", "gif"]).any fun e =>
    strIncludes s ("." ++ e ++ "?") || strEndsWith s ("." ++ e)

/-- Serialize the full URL (the `href` getter), for `isDirectImageUrl`. -/
def serializeHref (u : UrlParts) : String :=
  String.mk
    (u.scheme ++ [':'] ++
      (if u.hasAuth then
        ['/', '/'] ++
          (if u.userinfo.isEmpty then [] else u.userinfo ++ ['@']) ++
          u.hostname ++
          (if u.port.isEmpty then [] else ':' :: u.port)
      else []) ++
      u.pathname ++
      (if u.search.isEmpty then [] else '?' :: u.search) ++
      (if u.hash.isEmpty then [] else '#' :: u.hash))

/-- The hostname as a string. -/
def hostnameStr (u : UrlParts) : String := String.mk u.hostname

/-- index.ts:1422-1431 — `isDirectImageUrl`. -/
def isDirectImageUrl (url : String) : Bool :=
  match parseUrl url with
  | some u =>
    let lower := strLower (serializeHref u)
    if strEndsWith (hostnameStr u) "preview.redd.it" then true
    else imageExtTest lower || strIncludes lower "format=pjpg"
  | none => imageExtTest (strLower url)

/-- Clauses 4 and 5 of `extractBestMediaUrl` (index.ts:1146-1155): the
preview static source, then the overridden destination URL, then the post
URL when its extension matches. -/
def extractStep4 (d : PostData) : Option String :=
  match jsStr ((pimgOf d).bind fun pi => pi.source.bind fun so => so.url) with
  | some src => some (decodeRedditUrl src)
  | none =>
    match jsStr d.url_overridden_by_dest with
    | some v => some v
    | none =>
      match jsStr d.url with
      | some u => if mediaExtTest u then some u else none
      | none => none

/-- `meta.p[meta.p.length - 1]?.u` guarded by `meta.p.length` truthiness. -/
def lastPU : Option (List MetaP) → Option String
  | some l => if l.isEmpty then none else l.getLast?.bind fun mp => mp.u
  | none => none

/-- The gallery loop body of index.ts:1137-1143. -/
def galleryFind (mm : List (String × MediaMeta)) :
    List GalleryItem → Option String
  | [] => none
  | it :: rest =>
    match mm.lookup it.media_id with
    | none => galleryFind mm rest
    | some meta =>
      match jsStr (meta.s.bind fun ms => ms.u) <|>
          jsStr (meta.s.bind fun ms => ms.gif) <|> jsStr (lastPU meta.p) with
      | some src => some (decodeRedditUrl src)
      | none => galleryFind mm rest

/-- Clause 3 of `extractBestMediaUrl` (index.ts:1135-1144): the gallery
walk, guarded by `is_gallery`, `gallery_data?.items` and `media_metadata`. -/
def extractStep3 (d : PostData) : Option String :=
  if d.is_gallery then
    match d.gallery_data, d.media_metadata with
    | some items, some mm =>
      match galleryFind mm items with
      | some v => some v
      | none => extractStep4 d
    | _, _ => extractStep4 d
  else extractStep4 d

/-- Clause 2 of `extractBestMediaUrl` (index.ts:1125-1133): preview
variants (MP4 preferred over GIF), guarded by the truthiness of the
`variants` object. -/
def extractStep2 (d : PostData) : Option String :=
  match pimgOf d with
  | some pi =>
    match pi.variants with
    | some vs =>
      match jsStr (vs.mp4.bind fun v => v.source.bind fun so => so.url) with
      | some v => some (decodeRedditUrl v)
      | none =>
        match jsStr (vs.gif.bind fun v => v.source.bind fun so => so.url) with
        | some v => some (decodeRedditUrl v)
        | none => extractStep3 d
    | none => extractStep3 d
  | none => extractStep3 d

/-- index.ts:1113-1156 — `extractBestMediaUrl`, transcribed clause by
clause.  Clause 1: the native Reddit video (fallback, scraper, then HLS
URL); the remaining clauses are `extractStep2` through `extractStep4`. -/
def extractBestMediaUrl (d : PostData) : Option String :=
  match d.media.bind fun m => m.reddit_video with
  | some rv =>
    match jsStr rv.fallback_url with
    | some v => some v
    | none =>
      match jsStr rv.scraper_media_url with
      | some v => some v
      | none =>
        match jsStr rv.hls_url with
        | some v => some v
        | none => extractStep2 d
  | none => extractStep2 d

/-! ## Spec-side extraction candidates

Independent definitions of the five candidate classes named by the spec
(§4.2), used to state which priority order the code actually implements. -/

/-- The native video descriptor's playable URL (fallback, scraper, HLS). -/
def nativeVideoCandidate (d : PostData) : Option String :=
  match d.media.bind fun m => m.reddit_video with
  | some rv =>
    jsStr rv.fallback_url <|> jsStr rv.scraper_media_url <|> jsStr rv.hls_url
  | none => none

/-- The preview image's richest variant: muxed MP4 over animated GIF. -/
def previewVariantCandidate (d : PostData) : Option String :=
  match pimgOf d with
  | some pi =>
    match pi.variants with
    | some vs =>
      ((jsStr (vs.mp4.bind fun v => v.source.bind fun so => so.url)).map
          decodeRedditUrl) <|>
        ((jsStr (vs.gif.bind fun v => v.source.bind fun so => so.url)).map
          decodeRedditUrl)
    | none => none
  | none => none

/-- The multi-image gallery's original-resolution asset. -/
def galleryCandidate (d : PostData) : Option String :=
  if d.is_gallery then
    match d.gallery_data, d.media_metadata with
    | some items, some mm => galleryFind mm items
    | _, _ => none
  else none

/-- The preview image's static source. -/
def previewSourceCandidate (d : PostData) : Option String :=
  (jsStr ((pimgOf d).bind fun pi => pi.source.bind fun so => so.url)).map
    decodeRedditUrl

/-- The overridden destination URL, else the post URL on a media suffix. -/
def directUrlCandidate (d : PostData) : Option String :=
  jsStr d.url_overridden_by_dest <|>
    ((jsStr d.url).bind fun u => if mediaExtTest u then some u else none)

theorem extractStep4_eq (d : PostData) :
    extractStep4 d = (previewSourceCandidate d <|> directUrlCandidate d) := by
  unfold extractStep4 previewSourceCandidate directUrlCandidate
  cases h1 : jsStr ((pimgOf d).bind fun pi => pi.source.bind fun so => so.url) <;>
    cases h2 : jsStr d.url_overridden_by_dest <;>
      cases h3 : jsStr d.url <;>
        simp [h1, h2, h3, Option.map, Option.orElse, Option.bind]

theorem extractStep3_eq (d : PostData) :
    extractStep3 d =
      (galleryCandidate d <|> (previewSourceCandidate d <|>
        directUrlCandidate d)) := by
  unfold extractStep3 galleryCandidate
  rw [← extractStep4_eq]
  by_cases hg : d.is_gallery
  · simp only [hg, if_true]
    cases hgd : d.gallery_data with
    | none => simp [Option.orElse]
    | some items =>
      cases hmm : d.media_metadata with
      | none => simp [Option.orElse]
      | some mm =>
        cases hgf : galleryFind mm items <;> simp [hgf, Option.orElse]
  · simp [hg, Option.orElse]

theorem extractStep2_eq (d : PostData) :
    extractStep2 d =
      (previewVariantCandidate d <|> (galleryCandidate d <|>
        (previewSourceCandidate d <|> directUrlCandidate d))) := by
  unfold extractStep2 previewVariantCandidate
  rw [← extractStep3_eq]
  cases hpi : pimgOf d with
  | none => simp [Option.orElse]
  | some pi =>
    cases hv : pi.variants with
    | none => simp [hv, Option.orElse]
    | some vs =>
      cases h1 : jsStr (vs.mp4.bind fun v => v.source.bind fun so => so.url) <;>
        cases h2 : jsStr (vs.gif.bind fun v => v.source.bind fun so => so.url) <;>
          simp [hv, h1, h2, Option.map, Option.orElse]

/-- C3 (amended): the priority order the code actually implements is
(1) native video descriptor, (2) preview variants (MP4 over GIF),
(3) gallery original asset, (4) preview static source, (5) overridden
destination URL, then the post URL on a known media suffix — preview
variants are consulted BEFORE the gallery, not after it. -/
theorem c3_extract_priority_amended (d : PostData) :
    extractBestMediaUrl d =
      (nativeVideoCandidate d <|> (previewVariantCandidate d <|>
        (galleryCandidate d <|> (previewSourceCandidate d <|>
          directUrlCandidate d)))) := by
  unfold extractBestMediaUrl nativeVideoCandidate
  rw [← extractStep2_eq]
  cases hrv : d.media.bind fun m => m.reddit_video with
  | none => simp [Option.orElse]
  | some rv =>
    cases h1 : jsStr rv.fallback_url <;>
      cases h2 : jsStr rv.scraper_media_url <;>
        cases h3 : jsStr rv.hls_url <;>
          simp [h1, h2, h3, Option.orElse]

/-- A record with both a gallery asset and a preview MP4 variant, and no
native video descriptor. -/
def c3post : PostData :=
  { emptyPost with
      is_gallery := true,
      gallery_data := some [⟨"m1"⟩],
      media_metadata :=
        some [("m1", ⟨some ⟨some "https://i.redd.it/gal.jpg", none⟩, none⟩)],
      preview :=
        some ⟨some [⟨some ⟨some ⟨some ⟨some "https://preview.redd.it/clip.mp4"⟩⟩,
          none⟩, none⟩]⟩ }

/-- C3 counterexample: on a record with both a gallery asset and a preview
variant but no native video, the code returns the preview variant, not the
gallery asset — the claim places the gallery before the preview variants,
the code consults the preview variants first. -/
theorem c3_counterexample_gallery_vs_preview :
    nativeVideoCandidate c3post = none ∧
    galleryCandidate c3post = some "https://i.redd.it/gal.jpg" ∧
    previewVariantCandidate c3post = some "https://preview.redd.it/clip.mp4" ∧
    extractBestMediaUrl c3post ≠ some "https://i.redd.it/gal.jpg" ∧
    extractBestMediaUrl c3post = some "https://preview.redd.it/clip.mp4" := by
  refine ⟨rfl, by decide, by decide, by decide, by decide⟩

/-! ## Content validation (`validateVideoUrl`, index.ts:1328-1420)

The two network round-trips (HEAD probe, ranged GET) and the body read are
driven by a `NetOracle`; `none` models the corresponding operation throwing
(network failure). -/

structure HttpResp where
  ok : Bool
  status : Int
  contentType : String
  contentLength : Option String
  deriving Repr, DecidableEq

structure NetOracle where
  head : Option HttpResp
  get : Option HttpResp
  body : Option String
  deriving Repr, DecidableEq

/-- index.ts:1391-1392 —
`const size = contentLength ? parseInt(contentLength, 10) : 0` followed by
`size < 100000`.  A `NaN` size makes the comparison false (no rejection). -/
def sizeTooSmall (cl : Option String) : Bool :=
  match jsStr cl with
  | none => true
  | some s =>
    match jsParseInt s with
    | none => false
    | some n => n < 100000

def isSpaceChar (c : Char) : Bool :=
  c == ' ' || c == '\t' || c == '\n' || c == '\r'

/-- JS `String.prototype.trim` (for the whitespace the pipeline meets). -/
def jsTrim (s : String) : String :=
  String.mk (((s.data.dropWhile isSpaceChar).reverse.dropWhile
    isSpaceChar).reverse)

/-- `chunk.trim().startsWith('<')`. -/
def headIsLt (s : String) : Bool :=
  match (jsTrim s).data with
  | '<' :: _ => true
  | _ => false

/-- index.ts:1328-1420 — `validateVideoUrl`: HEAD probe, content-type
checks, ranged GET, effective-type check, body sniff, octet-stream size
check; every failure and every network error yields `false`. -/
def validateVideoUrl (net : NetOracle) (url : String) : Bool :=
  match net.head with
  | none => false
  | some r =>
    if !r.ok then false
    else
      let ct := strLower r.contentType
      if strIncludes ct "text/html" || strIncludes ct "text/plain" then false
      else if strIncludes ct "video/" ||
          strIncludes ct "application/octet-stream" then
        match net.get with
        | none => false
        | some g =>
          if !g.ok && g.status != 206 then false
          else
            let act := strLower g.contentType
            if strIncludes act "text/html" || strIncludes act "text/plain" then
              false
            else
              match net.body with
              | none => false
              | some chunk =>
                if headIsLt chunk || strIncludes chunk "<!DOCTYPE" ||
                    strIncludes chunk "<html" then false
                else if strIncludes ct "application/octet-stream" then
                  if sizeTooSmall r.contentLength then false else true
                else true
      else false

/-- C5: validation fails closed — whenever any of the network operations it
performs errors (the HEAD fetch, the ranged GET, or the body read), the
result is `false`; a network error never yields `true`. -/
theorem c5_validate_fail_closed (net : NetOracle) (url : String)
    (h : net.head = none ∨ net.get = none ∨ net.body = none) :
    validateVideoUrl net url = false := by
  unfold validateVideoUrl
  cases hh : net.head with
  | none => rfl
  | some r =>
    rcases h with h | h | h
    · rw [hh] at h; cases h
    · rw [h]
      simp only
      split_ifs <;> rfl
    · rw [h]
      simp only
      split_ifs <;> (try rfl) <;> (cases hg : net.get <;> simp)

/-- Witness for C5: a HEAD-level network failure on a concrete oracle. -/
theorem c5_witness :
    (⟨none, some ⟨true, 200, "video/mp4", some "500000"⟩,
        some "ftypmp42"⟩ : NetOracle).head = none ∧
    validateVideoUrl
      ⟨none, some ⟨true, 200, "video/mp4", some "500000"⟩,
        some "ftypmp42"⟩ "https://cdn.example/clip.mp4" = false :=
  ⟨rfl, c5_validate_fail_closed _ _ (Or.inl rfl)⟩

/-! ## Trust and format classifiers (inline checks in `scheduled`) -/

/-- index.ts:655-659 — the trusted-source check guarding resolution. -/
def isTrustedSourceResolve (u : String) : Bool :=
  strIncludes u "v.redd.it" || strIncludes u "reddit.com" ||
    strIncludes u "googlevideo.com" || strIncludes u "streamin.one"

/-- index.ts:847-851 (and 887-890) — the trusted-domain check that skips
content validation: Reddit, Streamain and Streamin only. -/
def isTrustedDomainValidate (u : String) : Bool :=
  strIncludes u "v.redd.it" || strIncludes u "reddit.com" ||
    strIncludes u "streamain.com" || strIncludes u "streamin.one"

/-- index.ts:919-923 — the trusted-source check guarding the sendVideo
verb: Reddit, googlevideo (YouTube playback), Streamain and Streamin. -/
def isTrustedSourceSend (u : String) : Bool :=
  strIncludes u "v.redd.it" || strIncludes u "reddit.com" ||
    strIncludes u "googlevideo.com" || strIncludes u "streamain.com" ||
    strIncludes u "streamin.one"

/-- index.ts:838-840 and 912-914 — a URL the dispatcher treats as a video:
ends with `.mp4`, or is a googlevideo playback URL. -/
def isVideoShapedUrl (u : String) : Bool :=
  strEndsWith u ".mp4" || strIncludes u "googlevideo.com/videoplayback"

/-! ## The scheduled pipeline as a pure fold

One oracle per post supplies the outcomes of every external effect met while
processing it: the two possible browser resolutions (`getFinalStreamUrl`),
the three possible validation round-trips, the AI call, and the Telegram
sink response.  `resolve1Throws` models `puppeteer.launch`/`newPage`
throwing during the resolution phase (outside the per-post try of
index.ts:748), which propagates to the run-level catch; `resolve2Throws`
models the same failure during the last-chance rescue (index.ts:878), which
is inside the per-post try. -/

structure Oracle where
  net1 : NetOracle
  resolve1 : Option String
  resolve1Throws : Bool
  aiThrows : Bool
  net2 : NetOracle
  resolve2 : Option String
  resolve2Throws : Bool
  net3 : NetOracle
  sinkOk : Bool
  deriving Repr, DecidableEq

inductive Verb where
  | photo
  | video
  | message
  deriving Repr, DecidableEq

/-- One invocation of the delivery sink: the verb, the media reservation
key the post holds, and the URL placed in the payload. -/
structure SinkCall where
  verb : Verb
  mediaKey : String
  url : String
  deriving Repr, DecidableEq

/-- The reservation store, `PROCESSED_POSTS_KV`. -/
def Kv : Type := String → Option String

def kvPut (kv : Kv) (k v : String) : Kv :=
  fun x => if x = k then some v else kv x

def kvDel (kv : Kv) (k : String) : Kv :=
  fun x => if x = k then none else kv x

structure DeliverOut where
  kv : Kv
  calls : List SinkCall

/-- index.ts:909-1030 — the dispatch decision, after validation and the
optional rescue have fixed the final URL `u` and its validity flag.
`uO` is the pre-rescue URL, whose links the prepared text message carries.
Branches in order: the untrusted-with-retries-left skip (927-932), the
forced-degrade flag (935-939) folded into the video guard (941), the video
send (941-982), the retry-decrement (985-991), and the last-attempt text
send (994-1007); a non-OK sink response releases both reservations
(1010-1019), an OK one commits them (1029-1030). -/
def dispatch (kv : Kv) (key mediaKey : String) (retriesLeft : Int)
    (uO u : String) (valid : Bool) (o : Oracle) : DeliverOut :=
  let isVid := isVideoShapedUrl u
  let isDash := strIncludes u "DASH_"
  let s0 := isVid && valid && (!isDash || decide (retriesLeft ≤ 1))
  let trusted := isTrustedSourceSend u
  if s0 && !trusted && decide (1 < retriesLeft) then
    ⟨kvDel (kvPut kv key (toString (retriesLeft - 1))) mediaKey, []⟩
  else if s0 && trusted then
    if o.sinkOk then
      ⟨kvPut (kvPut kv key "0") mediaKey "1", [⟨.video, mediaKey, u⟩]⟩
    else ⟨kvDel (kvDel kv mediaKey) key, [⟨.video, mediaKey, u⟩]⟩
  else
    if decide (1 < retriesLeft) then
      ⟨kvDel (kvPut kv key (toString (retriesLeft - 1))) mediaKey, []⟩
    else
      if o.sinkOk then
        ⟨kvPut (kvPut kv key "0") mediaKey "1", [⟨.message, mediaKey, uO⟩]⟩
      else ⟨kvDel (kvDel kv mediaKey) key, [⟨.message, mediaKey, uO⟩]⟩

/-- index.ts:748-1030 — the per-post try block: AI call, the image
short-circuit (798-836), validation (838-866), the invalid-URL handling
with last-attempt rescue (868-907), then `dispatch`.  An exception inside
the block (AI or rescue launch failure) releases both reservations. -/
def deliverPhase (kv : Kv) (key mediaKey : String) (retriesLeft : Int)
    (u : String) (o : Oracle) : DeliverOut :=
  if o.aiThrows then ⟨kvDel (kvDel kv mediaKey) key, []⟩
  else if isDirectImageUrl u then
    if o.sinkOk then
      ⟨kvPut (kvPut kv key "0") mediaKey "1", [⟨.photo, mediaKey, u⟩]⟩
    else ⟨kvDel (kvDel kv mediaKey) key, [⟨.photo, mediaKey, u⟩]⟩
  else
    let isVid := isVideoShapedUrl u
    let isValid0 :=
      isVid && (isTrustedDomainValidate u || validateVideoUrl o.net2 u)
    if !isValid0 && isVid then
      if decide (1 < retriesLeft) then
        ⟨kvDel (kvPut kv key (toString (retriesLeft - 1))) mediaKey, []⟩
      else if o.resolve2Throws then ⟨kvDel (kvDel kv mediaKey) key, []⟩
      else
        match jsStr o.resolve2 with
        | some r =>
          if r ≠ u then
            dispatch kv key mediaKey retriesLeft u r
              (if isTrustedDomainValidate r then true
               else if isVideoShapedUrl r then validateVideoUrl o.net3 r
               else false) o
          else dispatch kv key mediaKey retriesLeft u u false o
        | none => dispatch kv key mediaKey retriesLeft u u false o
    else dispatch kv key mediaKey retriesLeft u u isValid0 o

/-- index.ts:1043-1064 — `derivePostKey`: first truthy of name, id,
permalink, url, `title::created_utc`; URLs are normalized by stripping
query and fragment and reserializing. -/
def derivePostKey (d : PostData) : String :=
  let raw :=
    match jsStr d.name with
    | some v => v
    | none =>
      match jsStr d.id with
      | some v => v
      | none =>
        match jsStr d.permalink with
        | some v => v
        | none =>
          match jsStr d.url with
          | some v => v
          | none =>
            (d.title.getD "") ++ "::" ++ (d.created_utc.getD "")
  if strStartsWith raw "http" then
    match parseUrl raw with
    | some u =>
      "post:" ++
        String.mk
          (u.scheme ++ [':'] ++
            (if u.hasAuth then
              ['/', '/'] ++
                (if u.userinfo.isEmpty then [] else u.userinfo ++ ['@']) ++
                u.hostname ++
                (if u.port.isEmpty then [] else ':' :: u.port)
            else []) ++ u.pathname)
    | none => "post:" ++ raw
  else "post:" ++ raw

/-- index.ts:569-610 — the extracted URL after the reddit-video override:
a truthy `fallback_url` or `scraper_media_url` ending in `.mp4` replaces
the extracted candidate. -/
def effectiveMediaUrl (d : PostData) : Option String :=
  let v0 := extractBestMediaUrl d
  let rv := d.media.bind fun m => m.reddit_video
  let fb := rv.bind fun r => r.fallback_url
  let sc := rv.bind fun r => r.scraper_media_url
  match jsStr fb with
  | some s =>
    if strEndsWith s ".mp4" then some s
    else
      match jsStr sc with
      | some t => if strEndsWith t ".mp4" then some t else v0
      | none => v0
  | none =>
    match jsStr sc with
    | some t => if strEndsWith t ".mp4" then some t else v0
    | none => v0

/-- index.ts:654-694 — the resolution phase.  Trusted MP4 URLs pass
through; untrusted MP4 URLs are validated and, when invalid, resolved in
the browser; everything else (non-image, non-MP4) is resolved in the
browser.  `Except.error` models a browser-launch exception, which is NOT
caught per-post (the per-post try starts at index.ts:748). -/
def resolvePhase (u : String) (o : Oracle) : Except Unit String :=
  if isDirectImageUrl u then .ok u
  else
    let mp4 := strIncludes u ".mp4"
    if mp4 && isTrustedSourceResolve u then .ok u
    else if mp4 && !isTrustedSourceResolve u then
      if validateVideoUrl o.net1 u then .ok u
      else if o.resolve1Throws then .error ()
      else
        match jsStr o.resolve1 with
        | some r => .ok (if r = u then u else r)
        | none => .ok u
    else
      if o.resolve1Throws then .error ()
      else
        match jsStr o.resolve1 with
        | some r => .ok (if r = u then u else r)
        | none => .ok u

/-- The state of one `scheduled` run: the `processedThisRun` set, the KV
store, and the sink calls made so far (newest first). -/
structure RunState where
  processed : List String
  kv : Kv
  calls : List SinkCall

/-- The media-dedupe, reservation, resolution and delivery part of the loop
body (index.ts:631-1033), entered once the post-key guards passed with
`retries` attempts left. -/
def processItemCont (st : RunState) (p : PostData) (o : Oracle)
    (key : String) (retries : Int) : Bool × RunState :=
  match jsStr (effectiveMediaUrl p) with
  | none =>
    (false, ⟨st.processed, kvPut st.kv key (toString (retries - 1)), st.calls⟩)
  | some u =>
    let rawMediaKey := "media:" ++ canonicalizeUrl u
    if rawMediaKey ∈ st.processed ∨ jsStr (st.kv rawMediaKey) ≠ none then
      (false, ⟨st.processed, kvPut st.kv key "0", st.calls⟩)
    else
      let processed1 := rawMediaKey :: st.processed
      let kv1 := kvPut (kvPut st.kv key "pending") rawMediaKey "pending"
      match resolvePhase u o with
      | .error _ => (true, ⟨processed1, kv1, st.calls⟩)
      | .ok u1 =>
        let mediaKey := "media:" ++ canonicalizeUrl u1
        if mediaKey ≠ rawMediaKey ∧
            (mediaKey ∈ processed1 ∨ jsStr (kv1 mediaKey) ≠ none) then
          (false, ⟨processed1, kvPut kv1 key "0", st.calls⟩)
        else
          let processed2 := mediaKey :: processed1
          let kv2 :=
            if mediaKey ≠ rawMediaKey then
              kvPut (kvDel kv1 rawMediaKey) mediaKey "pending"
            else kv1
          let out := deliverPhase kv2 key mediaKey retries u1 o
          (false, ⟨processed2, out.kv, out.calls ++ st.calls⟩)

/-- One iteration of the loop of index.ts:562-1034: the in-run post-key
check, the stored post-key check (`"0"`/`"pending"` skip, otherwise the
parsed retry count), then `processItemCont`.  The first component is `true`
when an uncaught exception aborts the whole run. -/
def processItem (st : RunState) (p : PostData) (o : Oracle) :
    Bool × RunState :=
  let key := derivePostKey p
  if key ∈ st.processed then (false, st)
  else
    match st.kv key with
    | some v =>
      if v = "0" ∨ v = "pending" then (false, st)
      else processItemCont st p o key (jsNumOr0 v)
    | none => processItemCont st p o key 5

/-- The batch fold; an aborting post ends the run (the run-level catch of
index.ts:1035 swallows the exception and returns). -/
def runBatch : RunState → List (PostData × Oracle) → RunState
  | st, [] => st
  | st, po :: rest =>
    match processItem st po.1 po.2 with
    | (true, st1) => st1
    | (false, st1) => runBatch st1 rest

/-- One `scheduled` run over a fetched batch: filter to the `Media` flair,
process oldest first (`.reverse`), starting from an empty in-run set. -/
def scheduledRun (kv : Kv) (batch : List (PostData × Oracle)) : RunState :=
  runBatch ⟨[], kv, []⟩
    ((batch.filter fun po => po.1.link_flair_text == some "Media").reverse)

/-! ## Structural lemmas about the dispatcher -/

theorem dispatch_calls_spec (kv : Kv) (key mk : String) (r : Int)
    (uO u : String) (valid : Bool) (o : Oracle) :
    (dispatch kv key mk r uO u valid o).calls = [] ∨
    ∃ c, (dispatch kv key mk r uO u valid o).calls = [c] ∧ c.mediaKey = mk ∧
      (c.verb = .video →
        c.url = u ∧ isVideoShapedUrl u = true ∧
          isTrustedSourceSend u = true ∧ valid = true) := by
  simp only [dispatch]
  split_ifs with h1 h2 h3 <;>
    first
      | exact Or.inl rfl
      | (right
         refine ⟨_, rfl, rfl, fun hv => ?_⟩
         first
           | (simp only [Bool.and_eq_true] at h2
              exact ⟨rfl, h2.1.1.1, h2.2, h2.1.1.2⟩)
           | cases hv)

theorem deliverPhase_calls_spec (kv : Kv) (key mk : String) (r : Int)
    (u : String) (o : Oracle) :
    (deliverPhase kv key mk r u o).calls = [] ∨
    ∃ c, (deliverPhase kv key mk r u o).calls = [c] ∧ c.mediaKey = mk ∧
      (c.verb = .video →
        isVideoShapedUrl c.url = true ∧ isTrustedSourceSend c.url = true) := by
  simp only [deliverPhase]
  split_ifs with h1 h2 h3 h4 h5 h6
  · exact Or.inl rfl
  · right
    refine ⟨_, rfl, rfl, fun hv => ?_⟩
    cases hv
  · right
    refine ⟨_, rfl, rfl, fun hv => ?_⟩
    cases hv
  · exact Or.inl rfl
  · exact Or.inl rfl
  · rcases hres : jsStr o.resolve2 with _ | r2
    · rcases dispatch_calls_spec kv key mk r u u false o with h | ⟨c, hc, hk, hv⟩
      · exact Or.inl h
      · exact Or.inr ⟨c, hc, hk, fun hcv =>
          ((hv hcv).1 ▸ ⟨(hv hcv).2.1, (hv hcv).2.2.1⟩)⟩
    · by_cases hne : r2 = u
      · simp only [hne, if_neg (by simp : ¬(u ≠ u))]
        rcases dispatch_calls_spec kv key mk r u u false o with h | ⟨c, hc, hk, hv⟩
        · exact Or.inl h
        · exact Or.inr ⟨c, hc, hk, fun hcv =>
            ((hv hcv).1 ▸ ⟨(hv hcv).2.1, (hv hcv).2.2.1⟩)⟩
      · simp only [if_pos hne]
        rcases dispatch_calls_spec kv key mk r u r2
            (if isTrustedDomainValidate r2 then true
             else if isVideoShapedUrl r2 then validateVideoUrl o.net3 r2
             else false) o with h | ⟨c, hc, hk, hv⟩
        · exact Or.inl h
        · exact Or.inr ⟨c, hc, hk, fun hcv =>
            ((hv hcv).1 ▸ ⟨(hv hcv).2.1, (hv hcv).2.2.1⟩)⟩
  · rcases dispatch_calls_spec kv key mk r u u
        (isVideoShapedUrl u &&
          (isTrustedDomainValidate u || validateVideoUrl o.net2 u)) o with
      h | ⟨c, hc, hk, hv⟩
    · exact Or.inl h
    · exact Or.inr ⟨c, hc, hk, fun hcv =>
        ((hv hcv).1 ▸ ⟨(hv hcv).2.1, (hv hcv).2.2.1⟩)⟩

/-- On an allow-list miss with retries left, the dispatcher always takes
the retry-decrement path, whatever the validity flag. -/
theorem dispatch_untrusted_retry (kv : Kv) (key mk : String) (r : Int)
    (uO u : String) (valid : Bool) (o : Oracle)
    (htr : isTrustedSourceSend u = false) (hr : 1 < r) :
    dispatch kv key mk r uO u valid o =
      ⟨kvDel (kvPut kv key (toString (r - 1))) mk, []⟩ := by
  simp only [dispatch]
  by_cases hs : (isVideoShapedUrl u && valid &&
      (!strIncludes u "DASH_" || decide (r ≤ 1))) = true
  · rw [if_pos (by simp [hs, htr, hr])]
  · rw [if_neg (by simp [hs]), if_neg (by simp [hs]),
      if_pos (by simp [hr])]

/-- The validation-skip allow-list is contained in the send allow-list. -/
theorem validate_trusted_imp_send {u : String}
    (h : isTrustedDomainValidate u = true) : isTrustedSourceSend u = true := by
  unfold isTrustedDomainValidate at h
  unfold isTrustedSourceSend
  rcases Bool.or_eq_true_iff.mp h with h1 | h1
  · rcases Bool.or_eq_true_iff.mp h1 with h2 | h2
    · rcases Bool.or_eq_true_iff.mp h2 with h3 | h3 <;> simp [h3]
    · simp [h2]
  · simp [h1]

/-! ## Shared concrete fixtures for witnesses and counterexamples -/

/-- A network oracle on which `validateVideoUrl` succeeds. -/
def netOk : NetOracle :=
  ⟨some ⟨true, 200, "video/mp4", some "500000"⟩,
    some ⟨true, 206, "video/mp4", some "500000"⟩, some "ftypmp42"⟩

/-- A network oracle on which every probe throws. -/
def netDown : NetOracle := ⟨none, none, none⟩

/-- An oracle: no resolution hits, no throws, validation succeeds, the sink
accepts. -/
def oPass : Oracle := ⟨netOk, none, false, false, netOk, none, false, netOk, true⟩

/-- An oracle: no resolution hits, no throws, validation fails (network
down), the sink accepts. -/
def oFail : Oracle :=
  ⟨netDown, none, false, false, netDown, none, false, netDown, true⟩

def kvEmpty : Kv := fun _ => none

/-- C4 counterexample: a googlevideo playback URL is on the send allow-list
(`isTrustedSourceSend` is true for it), and the dispatcher does send it as
a video attachment once validation passes, instead of following the
untrusted retry-then-degrade path — the claim calls googlevideo.com
untrusted. -/
theorem c4_counterexample_googlevideo_trusted :
    isTrustedSourceSend "https://rr3.googlevideo.com/videoplayback" = true ∧
    (deliverPhase kvEmpty "post:k" "media:m" 5
        "https://rr3.googlevideo.com/videoplayback" oPass).calls =
      [⟨.video, "media:m", "https://rr3.googlevideo.com/videoplayback"⟩] := by
  constructor
  · decide
  · decide

/-- C4 (amended): the send-path allow-list is
{v.redd.it, reddit.com, googlevideo.com, streamain.com, streamin.one};
(a) every video attachment the dispatcher sends carries an allow-listed
URL, so URLs from hosts outside this list are never sent as video;
(b) googlevideo.com is NOT on the validation-skip list, so a googlevideo
URL reaches the video verb only through `validateVideoUrl`;
(c) an allow-list-miss that passed validation is not sent while retries
remain: the post retry count is decremented and the media reservation
released (the retry-then-degrade path). -/
theorem c4_trust_classification_amended :
    (∀ (kv : Kv) (key mk : String) (r : Int) (u : String) (o : Oracle),
      ∀ c ∈ (deliverPhase kv key mk r u o).calls,
        c.verb = .video → isTrustedSourceSend c.url = true) ∧
    isTrustedDomainValidate "https://rr3.googlevideo.com/videoplayback" = false ∧
    (∀ (kv : Kv) (key mk : String) (r : Int) (u : String) (o : Oracle),
      o.aiThrows = false →
      isDirectImageUrl u = false →
      isTrustedSourceSend u = false →
      isVideoShapedUrl u = true →
      validateVideoUrl o.net2 u = true →
      1 < r →
      (deliverPhase kv key mk r u o).calls = [] ∧
      (deliverPhase kv key mk r u o).kv =
        kvDel (kvPut kv key (toString (r - 1))) mk) := by
  refine ⟨?_, by decide, ?_⟩
  · intro kv key mk r u o c hc hv
    rcases deliverPhase_calls_spec kv key mk r u o with h | ⟨c1, hc1, _, hvid⟩
    · rw [h] at hc; cases hc
    · rw [hc1] at hc
      simp only [List.mem_singleton] at hc
      subst hc
      exact (hvid hv).2
  · intro kv key mk r u o hai himg htr hvid hval hr
    have htv : isTrustedDomainValidate u = false := by
      by_contra hcon
      rw [Bool.not_eq_false] at hcon
      rw [validate_trusted_imp_send hcon] at htr
      cases htr
    have hred : deliverPhase kv key mk r u o =
        dispatch kv key mk r u u
          (isVideoShapedUrl u &&
            (isTrustedDomainValidate u || validateVideoUrl o.net2 u)) o := by
      simp only [deliverPhase, hai, himg, Bool.false_eq_true, if_false]
      rw [if_neg (by simp [hvid, htv, hval])]
    rw [hred, dispatch_untrusted_retry kv key mk r u u _ o htr hr]
    exact ⟨rfl, rfl⟩

/-- Witness for the amended C4 theorem: part (a) at the googlevideo send,
part (c) at an untrusted CDN URL with retries remaining. -/
theorem c4_witness :
    isTrustedSourceSend "https://rr3.googlevideo.com/videoplayback" = true ∧
    ((deliverPhase kvEmpty "post:k" "media:m" 5
        "https://other.example/clip.mp4" oPass).calls = [] ∧
      (deliverPhase kvEmpty "post:k" "media:m" 5
          "https://other.example/clip.mp4" oPass).kv =
        kvDel (kvPut kvEmpty "post:k" (toString (5 - 1 : Int))) "media:m") :=
  ⟨c4_trust_classification_amended.1 kvEmpty "post:k" "media:m" 5
      "https://rr3.googlevideo.com/videoplayback" oPass
      ⟨.video, "media:m", "https://rr3.googlevideo.com/videoplayback"⟩
      (by decide) rfl,
    c4_trust_classification_amended.2.2 kvEmpty "post:k" "media:m" 5
      "https://other.example/clip.mp4" oPass rfl (by decide) (by decide)
      (by decide) (by decide) (by decide)⟩

/-- C7 counterexample: a URL that contains `.m3u8` but ends in `.mp4` on a
trusted host is sent with the video verb — the dispatcher's HLS exclusion
is not keyed on containing `.m3u8`. -/
theorem c7_counterexample_m3u8_video :
    strIncludes "https://v.redd.it/a.m3u8/clip.mp4" ".m3u8" = true ∧
    (deliverPhase kvEmpty "post:k" "media:m" 5
        "https://v.redd.it/a.m3u8/clip.mp4" oPass).calls =
      [⟨.video, "media:m", "https://v.redd.it/a.m3u8/clip.mp4"⟩] := by
  constructor
  · decide
  · decide

/-- C7 (amended): the video verb is selected only for URLs that end in
`.mp4` or contain `googlevideo.com/videoplayback`; in particular a media
reference whose final URL neither ends in `.mp4` nor is a googlevideo
playback URL — e.g. an ordinary HLS playlist ending in `.m3u8` — is never
sent as a video attachment, regardless of trust or retry state. -/
theorem c7_hls_never_video_amended (kv : Kv) (key mk : String) (r : Int)
    (u : String) (o : Oracle) :
    ∀ c ∈ (deliverPhase kv key mk r u o).calls,
      c.verb = .video →
        (strEndsWith c.url ".mp4" = true ∨
          strIncludes c.url "googlevideo.com/videoplayback" = true) := by
  intro c hc hv
  rcases deliverPhase_calls_spec kv key mk r u o with h | ⟨c1, hc1, _, hvid⟩
  · rw [h] at hc; cases hc
  · rw [hc1] at hc
    simp only [List.mem_singleton] at hc
    subst hc
    have := (hvid hv).1
    unfold isVideoShapedUrl at this
    exact Bool.or_eq_true_iff.mp this

/-- A non-OK sink response makes the dispatcher release both reservations
whenever it made a call. -/
theorem dispatch_fail_release (kv : Kv) (key mk : String) (r : Int)
    (uO u : String) (valid : Bool) (o : Oracle) (hs : o.sinkOk = false)
    (hc : (dispatch kv key mk r uO u valid o).calls ≠ []) :
    (dispatch kv key mk r uO u valid o).kv = kvDel (kvDel kv mk) key := by
  simp only [dispatch, hs, Bool.false_eq_true, if_false] at hc ⊢
  split_ifs at hc ⊢ with h1 h2 h3 <;>
    first
      | rfl
      | exact absurd rfl hc

/-- C8: whenever the per-post delivery section makes a sink call and the
sink responds non-success, it deletes both the post reservation key and the
media reservation key — its final store state is exactly the input store
with both keys deleted, so neither the terminal post value nor the
committed media value is written for this post in this pass. -/
theorem c8_failure_releases_reservations (kv : Kv) (key mk : String)
    (r : Int) (u : String) (o : Oracle) (hs : o.sinkOk = false)
    (hc : (deliverPhase kv key mk r u o).calls ≠ []) :
    (deliverPhase kv key mk r u o).kv = kvDel (kvDel kv mk) key ∧
    (deliverPhase kv key mk r u o).kv key = none ∧
    (deliverPhase kv key mk r u o).kv mk = none := by
  have hmain : (deliverPhase kv key mk r u o).kv = kvDel (kvDel kv mk) key := by
    simp only [deliverPhase, hs, Bool.false_eq_true, if_false] at hc ⊢
    split_ifs at hc ⊢ with h1 h2 h3 h4
    · exact absurd rfl hc
    · rfl
    · exact absurd rfl hc
    · exact absurd rfl hc
    · rcases hres : jsStr o.resolve2 with _ | r2
      · rw [hres] at hc
        exact dispatch_fail_release _ _ _ _ _ _ _ _ hs hc
      · rw [hres] at hc
        simp only at hc ⊢
        by_cases hne : r2 = u
        · rw [if_neg (by simp [hne])] at hc ⊢
          exact dispatch_fail_release _ _ _ _ _ _ _ _ hs hc
        · rw [if_pos hne] at hc ⊢
          exact dispatch_fail_release _ _ _ _ _ _ _ _ hs hc
    · exact dispatch_fail_release _ _ _ _ _ _ _ _ hs hc
  refine ⟨hmain, ?_, ?_⟩
  · rw [hmain]
    simp [kvDel]
  · rw [hmain]
    unfold kvDel
    by_cases hxy : mk = key <;> simp [hxy]

/-- On the last attempt, unless the reference is a valid video from an
allow-listed source, the dispatcher sends exactly one text message. -/
theorem dispatch_last_message (kv : Kv) (key mk : String) (uO u : String)
    (valid : Bool) (o : Oracle)
    (h : (isVideoShapedUrl u && valid && isTrustedSourceSend u) = false) :
    (dispatch kv key mk 1 uO u valid o).calls = [⟨.message, mk, uO⟩] := by
  simp only [dispatch]
  have hlt : decide ((1 : Int) < 1) = false := by decide
  have hle : decide ((1 : Int) ≤ 1) = true := by decide
  rw [if_neg (by simp [hlt]), if_neg ?_, if_neg (by decide)]
  · cases hso : o.sinkOk <;> simp [hso]
  · simp only [hle, Bool.or_true, Bool.and_true, Bool.and_eq_true]
    intro hcon
    rw [hcon.1.1, hcon.1.2, hcon.2] at h
    cases h

/-- On the last attempt with a reference that is untrusted, fails
validation, or is not video-shaped at all — and with the rescue resolution
finding nothing — the per-post delivery section makes exactly one sink
call, a text message. -/
theorem deliverPhase_last_attempt_message (kv : Kv) (key mk : String)
    (u : String) (o : Oracle)
    (hai : o.aiThrows = false) (himg : isDirectImageUrl u = false)
    (hr2t : o.resolve2Throws = false) (hr2 : jsStr o.resolve2 = none)
    (hrej : isTrustedSourceSend u = false ∨ isVideoShapedUrl u = false ∨
      (isTrustedDomainValidate u = false ∧ validateVideoUrl o.net2 u = false)) :
    (deliverPhase kv key mk 1 u o).calls = [⟨.message, mk, u⟩] := by
  simp only [deliverPhase, hai, himg, Bool.false_eq_true, if_false]
  have hlt : decide ((1 : Int) < 1) = false := by decide
  by_cases hV : (isVideoShapedUrl u &&
      (isTrustedDomainValidate u || validateVideoUrl o.net2 u)) = true
  · rw [if_neg (by simp [hV])]
    refine dispatch_last_message kv key mk u u _ o ?_
    rcases hrej with h | h | h
    · simp [h]
    · simp [h]
    · simp [h.1, h.2]
  · rw [Bool.not_eq_true] at hV
    by_cases hvid : isVideoShapedUrl u = true
    · have hV2 : (isTrustedDomainValidate u || validateVideoUrl o.net2 u)
          = false := by
        rw [hvid] at hV
        simpa using hV
      rw [if_pos (by simp [hvid, hV2])]
      rw [if_neg (by simp [hlt]), if_neg (by simp [hr2t])]
      rw [hr2]
      exact dispatch_last_message kv key mk u u false o (by simp)
    · rw [Bool.not_eq_true] at hvid
      rw [if_neg (by simp [hvid])]
      exact dispatch_last_message kv key mk u u _ o (by simp [hvid])

/-- When the browser resolution finds nothing and does not throw, the
resolution phase leaves the URL unchanged. -/
theorem resolvePhase_stable (u : String) (o : Oracle)
    (hr1 : jsStr o.resolve1 = none) (hr1t : o.resolve1Throws = false) :
    resolvePhase u o = .ok u := by
  simp only [resolvePhase, hr1, hr1t, Bool.false_eq_true, if_false]
  split_ifs <;> rfl

/-- C6: a post whose stored retry count is 1 and whose media URL is
rejected — untrusted for sending, or not video-shaped, or failing
validation — and which the rescue resolution cannot improve, still
produces exactly one delivery attempt: a text message, not a silent drop. -/
theorem c6_forced_degrade_on_last_attempt
    (st : RunState) (p : PostData) (o : Oracle) (u : String)
    (hkey : derivePostKey p ∉ st.processed)
    (hkv : st.kv (derivePostKey p) = some "1")
    (hurl : jsStr (effectiveMediaUrl p) = some u)
    (hfresh : ¬("media:" ++ canonicalizeUrl u ∈ st.processed ∨
        jsStr (st.kv ("media:" ++ canonicalizeUrl u)) ≠ none))
    (hr1 : jsStr o.resolve1 = none) (hr1t : o.resolve1Throws = false)
    (hai : o.aiThrows = false) (himg : isDirectImageUrl u = false)
    (hr2t : o.resolve2Throws = false) (hr2 : jsStr o.resolve2 = none)
    (hrej : isTrustedSourceSend u = false ∨ isVideoShapedUrl u = false ∨
      (isTrustedDomainValidate u = false ∧
        validateVideoUrl o.net2 u = false)) :
    (processItem st p o).1 = false ∧
    (processItem st p o).2.calls =
      ⟨.message, "media:" ++ canonicalizeUrl u, u⟩ :: st.calls := by
  have hnum : jsNumOr0 "1" = 1 := by decide
  unfold processItem
  rw [if_neg hkey, hkv]
  simp only
  rw [if_neg (by decide), hnum]
  unfold processItemCont
  rw [hurl]
  simp only
  rw [if_neg hfresh]
  rw [resolvePhase_stable u o hr1 hr1t]
  simp only
  rw [if_neg (by simp)]
  rw [if_neg (by simp)]
  rw [deliverPhase_last_attempt_message _ _ _ _ _ hai himg hr2t hr2 hrej]
  exact ⟨rfl, rfl⟩

/-- Witness for C6 at a concrete untrusted MP4 post with one retry left. -/
theorem c6_witness :
    (processItem
        ⟨[], fun k => if k = "post:t3_c6" then some "1" else none, []⟩
        { emptyPost with
            name := some "t3_c6",
            link_flair_text := some "Media",
            url_overridden_by_dest := some "https://other.example/clip.mp4" }
        oFail).1 = false ∧
    (processItem
        ⟨[], fun k => if k = "post:t3_c6" then some "1" else none, []⟩
        { emptyPost with
            name := some "t3_c6",
            link_flair_text := some "Media",
            url_overridden_by_dest := some "https://other.example/clip.mp4" }
        oFail).2.calls =
      ⟨.message, "media:" ++ canonicalizeUrl "https://other.example/clip.mp4",
        "https://other.example/clip.mp4"⟩ :: [] :=
  c6_forced_degrade_on_last_attempt
    ⟨[], fun k => if k = "post:t3_c6" then some "1" else none, []⟩
    { emptyPost with
        name := some "t3_c6",
        link_flair_text := some "Media",
        url_overridden_by_dest := some "https://other.example/clip.mp4" }
    oFail "https://other.example/clip.mp4"
    (by decide) (by decide) (by decide) (by decide) rfl rfl rfl (by decide)
    rfl rfl (Or.inl (by decide))

/-- If extraction finds nothing, the reddit-video override cannot install a
URL either (the override fields are among the extraction's clause-1
sources). -/
theorem effective_none_of_extract_none {p : PostData}
    (h : extractBestMediaUrl p = none) : effectiveMediaUrl p = none := by
  have h0 := h
  unfold effectiveMediaUrl
  cases hrv : p.media.bind fun m => m.reddit_video with
  | none => simp [hrv, jsStr, h]
  | some rv =>
    unfold extractBestMediaUrl at h
    rw [hrv] at h
    simp only at h
    cases hfb : jsStr rv.fallback_url with
    | some v => rw [hfb] at h; simp at h
    | none =>
      rw [hfb] at h
      cases hsc : jsStr rv.scraper_media_url with
      | some v => rw [hsc] at h; simp at h
      | none =>
        simp only [hrv, Option.some_bind, hfb, hsc]
        exact h0

/-- With no media URL, the loop body only decrements the stored count. -/
theorem processItemCont_no_media (st : RunState) (p : PostData) (o : Oracle)
    (key : String) (retries : Int) (heff : effectiveMediaUrl p = none) :
    processItemCont st p o key retries =
      (false,
        ⟨st.processed, kvPut st.kv key (toString (retries - 1)), st.calls⟩) := by
  unfold processItemCont
  rw [show jsStr (effectiveMediaUrl p) = none by rw [heff]; rfl]

/-- C9: for a post whose media never resolves (extraction yields no URL),
the stored retry count decreases by exactly one per run — an absent record
(implicit 5) becomes `"4"`, a stored `"n"` (1 ≤ n ≤ 5) becomes `"n-1"` —
and once the stored value is the terminal `"0"`, the run makes no store
write, no sink call and no state change at all for that key. -/
theorem c9_retry_monotonic (st : RunState) (p : PostData) (o : Oracle)
    (hext : extractBestMediaUrl p = none)
    (hkey : derivePostKey p ∉ st.processed) :
    (st.kv (derivePostKey p) = none →
      processItem st p o =
        (false,
          ⟨st.processed, kvPut st.kv (derivePostKey p) "4", st.calls⟩)) ∧
    (∀ n : Nat, 0 < n → n ≤ 5 →
      st.kv (derivePostKey p) = some (toString n) →
      processItem st p o =
        (false,
          ⟨st.processed, kvPut st.kv (derivePostKey p) (toString (n - 1)),
            st.calls⟩)) ∧
    (st.kv (derivePostKey p) = some "0" →
      processItem st p o = (false, st)) := by
  have heff := effective_none_of_extract_none hext
  refine ⟨?_, ?_, ?_⟩
  · intro hkv
    unfold processItem
    rw [if_neg hkey, hkv]
    rw [processItemCont_no_media st p o _ _ heff]
    have : toString ((5 : Int) - 1) = "4" := by decide
    rw [this]
  · intro n h1 h5 hkv
    unfold processItem
    rw [if_neg hkey, hkv]
    simp only
    interval_cases n <;>
      · rw [if_neg (by decide)]
        rw [processItemCont_no_media st p o _ _ heff]
        norm_num
        congr 1
  · intro hkv
    unfold processItem
    rw [if_neg hkey, hkv]
    simp

/-- A concrete post with no media fields at all. -/
def c9post : PostData :=
  { emptyPost with
      name := some "t3_c9",
      link_flair_text := some "Media" }

/-- A concrete store holding a retry count of 3 for `c9post`. -/
def c9kv : Kv := fun k => if k = "post:t3_c9" then some "3" else none

/-- Witness for C9 at a concrete post with a stored count of 3. -/
theorem c9_witness :
    extractBestMediaUrl c9post = none ∧
    processItem ⟨[], c9kv, []⟩ c9post oPass =
      (false, ⟨[], kvPut c9kv "post:t3_c9" "2", []⟩) :=
  ⟨rfl,
    (c9_retry_monotonic ⟨[], c9kv, []⟩ c9post oPass rfl
      (by decide)).2.1 3 (by decide) (by decide) rfl⟩

/-- When the resolution-phase browser launch does not throw, the phase
always returns some URL. -/
theorem resolvePhase_no_throw (u : String) (o : Oracle)
    (h : o.resolve1Throws = false) :
    ∃ u1, resolvePhase u o = .ok u1 := by
  simp only [resolvePhase, h, Bool.false_eq_true, if_false]
  split_ifs <;>
    first
      | exact ⟨u, rfl⟩
      | (cases hr : jsStr o.resolve1 with
         | none => exact ⟨u, rfl⟩
         | some r => exact ⟨if r = u then u else r, rfl⟩)

theorem processItemCont_no_abort (st : RunState) (p : PostData) (o : Oracle)
    (key : String) (retries : Int) (h : o.resolve1Throws = false) :
    (processItemCont st p o key retries).1 = false := by
  unfold processItemCont
  cases h1 : jsStr (effectiveMediaUrl p) with
  | none => rfl
  | some u =>
    simp only
    split_ifs with h2
    · rfl
    · obtain ⟨u1, hu1⟩ := resolvePhase_no_throw u o h
      rw [hu1]
      simp only
      split_ifs with h3 <;> rfl

/-- An oracle whose initial browser resolution throws. -/
def oLaunchThrow : Oracle :=
  ⟨netDown, none, true, false, netDown, none, false, netDown, true⟩

/-- A post whose URL needs browser resolution (neither image nor MP4). -/
def c10post1 : PostData :=
  { emptyPost with
      name := some "t3_p1",
      link_flair_text := some "Media",
      url_overridden_by_dest := some "https://streamable.com/abc" }

/-- An ordinary later post in the same batch (no media: would decrement). -/
def c10post2 : PostData :=
  { emptyPost with
      name := some "t3_p2",
      link_flair_text := some "Media" }

/-- C10 counterexample: a browser-launch failure while resolving the first
post's URL happens OUTSIDE the per-post try (which starts only at
index.ts:748), so it reaches the run-level catch and aborts the batch: the
second post is left untouched, although a run without the first post would
have written its decremented retry count. -/
theorem c10_counterexample_abort :
    (scheduledRun kvEmpty
        [(c10post2, oPass), (c10post1, oLaunchThrow)]).kv "post:t3_p2" =
      none ∧
    (scheduledRun kvEmpty [(c10post2, oPass)]).kv "post:t3_p2" =
      some "4" := by
  constructor
  · decide
  · decide

/-- C10 (amended): only a browser-launch failure in the initial resolution
phase (outside the per-post try) aborts the batch; every other per-post
failure — caption generation, the last-chance rescue resolution, validation
probes, the delivery call — is caught at the post boundary and the run
continues with the remaining posts. -/
theorem c10_error_boundary_amended (st : RunState) (p : PostData)
    (o : Oracle) (h : o.resolve1Throws = false) :
    (processItem st p o).1 = false := by
  simp only [processItem]
  split_ifs with h1
  · rfl
  · cases hk : st.kv (derivePostKey p) with
    | none => exact processItemCont_no_abort st p o _ _ h
    | some v =>
      simp only
      split_ifs with h2
      · rfl
      · exact processItemCont_no_abort st p o _ _ h

/-- Witness for the amended C10 theorem: an AI failure and a failing sink
do not abort the step. -/
theorem c10_witness :
    ((⟨netDown, none, false, true, netDown, none, false, netDown,
        false⟩ : Oracle).resolve1Throws = false) ∧
    (processItem ⟨[], kvEmpty, []⟩ c10post1
      ⟨netDown, none, false, true, netDown, none, false, netDown,
        false⟩).1 = false :=
  ⟨rfl,
    c10_error_boundary_amended ⟨[], kvEmpty, []⟩ c10post1
      ⟨netDown, none, false, true, netDown, none, false, netDown, false⟩ rfl⟩

/-- One step grows the in-run set monotonically and emits at most one sink
call, whose media key was not yet in the in-run set and is in it
afterwards. -/
theorem processItemCont_step_spec (st : RunState) (p : PostData)
    (o : Oracle) (key : String) (retries : Int) :
    (∀ a ∈ st.processed, a ∈ (processItemCont st p o key retries).2.processed) ∧
    ((processItemCont st p o key retries).2.calls = st.calls ∨
      ∃ c, (processItemCont st p o key retries).2.calls = c :: st.calls ∧
        c.mediaKey ∉ st.processed ∧
        c.mediaKey ∈ (processItemCont st p o key retries).2.processed) := by
  unfold processItemCont
  cases h1 : jsStr (effectiveMediaUrl p) with
  | none => exact ⟨fun a ha => ha, Or.inl rfl⟩
  | some u =>
    simp only
    split_ifs with h2
    · exact ⟨fun a ha => ha, Or.inl rfl⟩
    · cases hres : resolvePhase u o with
      | error e => exact ⟨fun a ha => List.mem_cons_of_mem _ ha, Or.inl rfl⟩
      | ok u1 =>
        simp only
        split_ifs with h3 h4
        · exact ⟨fun a ha => List.mem_cons_of_mem _ ha, Or.inl rfl⟩
        · have hmk_not : ("media:" ++ canonicalizeUrl u1) ∉ st.processed :=
            fun hmem => h3 ⟨h4, Or.inl (List.mem_cons_of_mem _ hmem)⟩
          refine ⟨fun a ha =>
            List.mem_cons_of_mem _ (List.mem_cons_of_mem _ ha), ?_⟩
          rcases deliverPhase_calls_spec
              (kvPut
                (kvDel
                  (kvPut (kvPut st.kv key "pending")
                    ("media:" ++ canonicalizeUrl u) "pending")
                  ("media:" ++ canonicalizeUrl u))
                ("media:" ++ canonicalizeUrl u1) "pending")
              key ("media:" ++ canonicalizeUrl u1) retries u1 o with
            hd | ⟨c, hc, hck, _⟩
          · left
            simp only [hd, List.nil_append]
          · right
            exact ⟨c, by simp only [hc, List.singleton_append],
              hck ▸ hmk_not, hck ▸ List.mem_cons_self _ _⟩
        · have hmr : ("media:" ++ canonicalizeUrl u1) =
              ("media:" ++ canonicalizeUrl u) := not_not.mp h4
          have hmk_not : ("media:" ++ canonicalizeUrl u1) ∉ st.processed :=
            fun hmem => h2 (Or.inl (hmr ▸ hmem))
          refine ⟨fun a ha =>
            List.mem_cons_of_mem _ (List.mem_cons_of_mem _ ha), ?_⟩
          rcases deliverPhase_calls_spec
              (kvPut (kvPut st.kv key "pending")
                ("media:" ++ canonicalizeUrl u) "pending")
              key ("media:" ++ canonicalizeUrl u1) retries u1 o with
            hd | ⟨c, hc, hck, _⟩
          · left
            simp only [hd, List.nil_append]
          · right
            exact ⟨c, by simp only [hc, List.singleton_append],
              hck ▸ hmk_not, hck ▸ List.mem_cons_self _ _⟩

theorem processItem_step_spec (st : RunState) (p : PostData) (o : Oracle) :
    (∀ a ∈ st.processed, a ∈ (processItem st p o).2.processed) ∧
    ((processItem st p o).2.calls = st.calls ∨
      ∃ c, (processItem st p o).2.calls = c :: st.calls ∧
        c.mediaKey ∉ st.processed ∧
        c.mediaKey ∈ (processItem st p o).2.processed) := by
  simp only [processItem]
  split_ifs with h1
  · exact ⟨fun a ha => ha, Or.inl rfl⟩
  · cases hk : st.kv (derivePostKey p) with
    | none => exact processItemCont_step_spec st p o _ _
    | some v =>
      simp only
      split_ifs with h2
      · exact ⟨fun a ha => ha, Or.inl rfl⟩
      · exact processItemCont_step_spec st p o _ _

/-- The run invariant: sink-call media keys are distinct and all recorded
in the in-run set. -/
theorem runBatch_inv (posts : List (PostData × Oracle)) :
    ∀ st : RunState,
      ((st.calls.map SinkCall.mediaKey).Nodup ∧
        ∀ c ∈ st.calls, c.mediaKey ∈ st.processed) →
      (((runBatch st posts).calls.map SinkCall.mediaKey).Nodup ∧
        ∀ c ∈ (runBatch st posts).calls,
          c.mediaKey ∈ (runBatch st posts).processed) := by
  induction posts with
  | nil => exact fun st h => h
  | cons po rest ih =>
    intro st h
    obtain ⟨hmono, hcalls⟩ := processItem_step_spec st po.1 po.2
    have hinv : (((processItem st po.1 po.2).2.calls.map
          SinkCall.mediaKey).Nodup ∧
        ∀ c ∈ (processItem st po.1 po.2).2.calls,
          c.mediaKey ∈ (processItem st po.1 po.2).2.processed) := by
      rcases hcalls with heq | ⟨c, heq, hnotin, hin⟩
      · rw [heq]
        exact ⟨h.1, fun c hc => hmono _ (h.2 c hc)⟩
      · rw [heq]
        constructor
        · simp only [List.map_cons, List.nodup_cons]
          refine ⟨fun hmem => ?_, h.1⟩
          rcases List.mem_map.mp hmem with ⟨c', hc', hkeq⟩
          exact hnotin (hkeq ▸ h.2 c' hc')
        · intro c' hc'
          rcases List.mem_cons.mp hc' with rfl | hc'
          · exact hin
          · exact hmono _ (h.2 c' hc')
    unfold runBatch
    cases hpi : processItem st po.1 po.2 with
    | mk ab st1 =>
      rw [hpi] at hinv
      cases ab with
      | true => exact hinv
      | false => exact ih st1 hinv

/-- C1: within a single scheduled run, the delivery sink is invoked at most
once per canonical media key (the keys of the run's sink calls are
pairwise distinct); and a post whose extracted media URL canonicalizes to a
key an earlier post of the same run already claimed is skipped — its
post-key is written the terminal value "0" and no sink call is made for
it. -/
theorem c1_media_key_delivered_at_most_once :
    (∀ (kv : Kv) (batch : List (PostData × Oracle)),
      ((scheduledRun kv batch).calls.map SinkCall.mediaKey).Nodup) ∧
    (∀ (st : RunState) (p : PostData) (o : Oracle) (u : String),
      derivePostKey p ∉ st.processed →
      st.kv (derivePostKey p) = none →
      jsStr (effectiveMediaUrl p) = some u →
      ("media:" ++ canonicalizeUrl u) ∈ st.processed →
      processItem st p o =
        (false,
          ⟨st.processed, kvPut st.kv (derivePostKey p) "0", st.calls⟩)) := by
  constructor
  · intro kv batch
    exact (runBatch_inv _ ⟨[], kv, []⟩ ⟨List.nodup_nil, fun c hc => by
      cases hc⟩).1
  · intro st p o u hkey hkv hurl hdup
    simp only [processItem]
    rw [if_neg hkey, hkv]
    simp only
    unfold processItemCont
    rw [hurl]
    simp only
    rw [if_pos (Or.inl hdup)]

/-- A state in which an earlier post of the run already claimed the clip's
canonical media key. -/
def c1state : RunState :=
  ⟨["media:https://cdn.example/clip.mp4"], kvEmpty, []⟩

/-- A later post of the same batch resolving to the same clip. -/
def c1post : PostData :=
  { emptyPost with
      name := some "t3_dup",
      link_flair_text := some "Media",
      url_overridden_by_dest := some "https://cdn.example/clip.mp4" }

/-- Witness for C1: part 1 at a concrete two-post batch, part 2 at the
duplicate post. -/
theorem c1_witness :
    (((scheduledRun kvEmpty [(c1post, oPass)]).calls.map
        SinkCall.mediaKey).Nodup) ∧
    processItem c1state c1post oPass =
      (false,
        ⟨c1state.processed, kvPut c1state.kv (derivePostKey c1post) "0",
          c1state.calls⟩) :=
  ⟨c1_media_key_delivered_at_most_once.1 kvEmpty [(c1post, oPass)],
    c1_media_key_delivered_at_most_once.2 c1state c1post oPass
      "https://cdn.example/clip.mp4" (by decide) rfl (by decide) (by decide)⟩

/-- Witness for C8: a failing sink on a concrete trusted video send. -/
theorem c8_witness :
    ((⟨netOk, none, false, false, netOk, none, false, netOk,
        false⟩ : Oracle).sinkOk = false ∧
      (deliverPhase kvEmpty "post:k" "media:m" 5
        "https://v.redd.it/abc/clip.mp4"
        ⟨netOk, none, false, false, netOk, none, false, netOk,
          false⟩).calls ≠ []) ∧
    (deliverPhase kvEmpty "post:k" "media:m" 5
        "https://v.redd.it/abc/clip.mp4"
        ⟨netOk, none, false, false, netOk, none, false, netOk,
          false⟩).kv "post:k" = none ∧
    (deliverPhase kvEmpty "post:k" "media:m" 5
        "https://v.redd.it/abc/clip.mp4"
        ⟨netOk, none, false, false, netOk, none, false, netOk,
          false⟩).kv "media:m" = none :=
  ⟨⟨rfl, by decide⟩,
    (c8_failure_releases_reservations kvEmpty "post:k" "media:m" 5
        "https://v.redd.it/abc/clip.mp4" _ rfl (by decide)).2⟩

/-- Witness for the amended C7 theorem at the concrete trusted MP4 send. -/
theorem c7_witness :
    ((⟨.video, "media:m", "https://v.redd.it/abc/clip.mp4"⟩ : SinkCall) ∈
      (deliverPhase kvEmpty "post:k" "media:m" 5
        "https://v.redd.it/abc/clip.mp4" oPass).calls) ∧
    (strEndsWith "https://v.redd.it/abc/clip.mp4" ".mp4" = true ∨
      strIncludes "https://v.redd.it/abc/clip.mp4"
        "googlevideo.com/videoplayback" = true) :=
  ⟨by decide,
    c7_hls_never_video_amended kvEmpty "post:k" "media:m" 5
      "https://v.redd.it/abc/clip.mp4" oPass
      ⟨.video, "media:m", "https://v.redd.it/abc/clip.mp4"⟩ (by decide) rfl⟩

end Golissimo
